import Mathlib

/-!
Verification of the timeline / polling / job-submission components of the
ai-video-maker frontend (`frontend/src/components/VideoTimeline.js`,
`VideoPreview.js`, `VideoExport.js`, `VideoDownload.js`).

Times and durations are JavaScript numbers; we embed them as rationals (ℚ),
which represent every concrete value appearing in the claims exactly.
-/

namespace VideoTimeline

/-- Per-scene record produced by `getSceneInfo` (VideoTimeline.js lines 36-52):
the scene's position `index`, its `startTime` (sum of the durations of all
earlier scenes, computed by the inner `for` loop) and
`endTime = startTime + duration`. The opaque scene `content` plays no role in
the claims and is omitted. -/
structure SceneInfo where
  index : ℕ
  startTime : ℚ
  endTime : ℚ
  deriving Repr, DecidableEq

/-- `getSceneInfo` (VideoTimeline.js lines 36-52), applied to the list of
scene durations of `script.scenes`: for each scene index, `startTime` is the
sum of the earlier durations (`for (let i = 0; i < index; i++) startTime +=
script.scenes[i].duration`) and `endTime = startTime + scene.duration`. -/
def getSceneInfo (durations : List ℚ) : List SceneInfo :=
  (List.range durations.length).map fun index =>
    { index := index
      startTime := (durations.take index).sum
      endTime := (durations.take index).sum + durations.getD index 0 }

/-- The scanning loop of `getCurrentSceneIndex` (VideoTimeline.js lines 57-61):
return the index of the first scene whose half-open interval
`[startTime, endTime)` contains `time` (`time >= scenes[i].startTime && time <
scenes[i].endTime`), or `none` when the loop falls through. -/
def findScene (time : ℚ) : List SceneInfo → Option ℕ
  | [] => none
  | s :: rest =>
      if s.startTime ≤ time ∧ time < s.endTime then some s.index
      else findScene time rest

/-- `getCurrentSceneIndex` (VideoTimeline.js lines 55-63): scan the scene
records built by `getSceneInfo` for the first interval containing `time`, and
fall back to `return 0` when no interval matches. -/
def getCurrentSceneIndex (time : ℚ) (durations : List ℚ) : ℕ :=
  (findScene time (getSceneInfo durations)).getD 0

/-- Scene-relative restatement of the scan of `getCurrentSceneIndex`: test the
head scene's interval `[0, d)` and recurse on the tail with the time shifted
by the head duration.  Proved equal to the scan over `getSceneInfo` in
`findScene_getSceneInfo`; used to compute and to reason by structural
induction. -/
def resolveAux (t : ℚ) : List ℚ → Option ℕ
  | [] => none
  | d :: rest => if 0 ≤ t ∧ t < d then some 0 else (resolveAux (t - d) rest).map (· + 1)

lemma getSceneInfo_cons (d : ℚ) (rest : List ℚ) :
    getSceneInfo (d :: rest) =
      { index := 0, startTime := 0, endTime := d } ::
        (getSceneInfo rest).map
          (fun s => { index := s.index + 1, startTime := d + s.startTime,
                      endTime := d + s.endTime }) := by
  unfold getSceneInfo
  rw [List.length_cons, List.range_succ_eq_map, List.map_cons, List.map_map, List.map_map]
  refine congrArg₂ _ ?_ ?_
  · simp
  · refine List.map_congr_left fun i _ => ?_
    simp [Function.comp, List.take_succ_cons, add_assoc]

lemma findScene_map_shift (t d : ℚ) (l : List SceneInfo) :
    findScene t
        (l.map fun s => { index := s.index + 1, startTime := d + s.startTime,
                          endTime := d + s.endTime }) =
      (findScene (t - d) l).map (· + 1) := by
  induction l with
  | nil => rfl
  | cons s rest ih =>
      simp only [List.map_cons, findScene]
      have hc : (d + s.startTime ≤ t ∧ t < d + s.endTime) ↔
          (s.startTime ≤ t - d ∧ t - d < s.endTime) := by
        constructor <;> intro h <;> exact ⟨by linarith [h.1], by linarith [h.2]⟩
      by_cases h : s.startTime ≤ t - d ∧ t - d < s.endTime
      · rw [if_pos (hc.mpr h), if_pos h]; rfl
      · rw [if_neg (fun hx => h (hc.mp hx)), if_neg h, ih]

lemma findScene_getSceneInfo (t : ℚ) (durations : List ℚ) :
    findScene t (getSceneInfo durations) = resolveAux t durations := by
  induction durations generalizing t with
  | nil => rfl
  | cons d rest ih =>
      rw [getSceneInfo_cons]
      simp only [findScene, resolveAux]
      by_cases h : (0:ℚ) ≤ t ∧ t < d
      · rw [if_pos h, if_pos h]
      · rw [if_neg h, if_neg h, findScene_map_shift, ih]

lemma getCurrentSceneIndex_eq (t : ℚ) (durations : List ℚ) :
    getCurrentSceneIndex t durations = (resolveAux t durations).getD 0 := by
  rw [getCurrentSceneIndex, findScene_getSceneInfo]

lemma getSceneInfo_nil : getSceneInfo [] = [] := rfl

lemma take_sum_le_take_sum {l : List ℚ} (hl : ∀ d ∈ l, 0 ≤ d) {i j : ℕ} (hij : i ≤ j) :
    (l.take i).sum ≤ (l.take j).sum := by
  have h1 : l.take i = (l.take j).take i := by rw [List.take_take, Nat.min_eq_left hij]
  have h2 : 0 ≤ ((l.take j).drop i).sum :=
    List.sum_nonneg fun d hd => hl d (List.mem_of_mem_take (List.mem_of_mem_drop hd))
  have h3 : ((l.take j).take i).sum + ((l.take j).drop i).sum = (l.take j).sum := by
    rw [← List.sum_append, List.take_append_drop]
  rw [h1]
  linarith

lemma resolveAux_eq_of_mem {durations : List ℚ} (hd : ∀ d ∈ durations, 0 ≤ d)
    {j : ℕ} (hj : j < durations.length) {t : ℚ}
    (h1 : (durations.take j).sum ≤ t) (h2 : t < (durations.take (j + 1)).sum) :
    resolveAux t durations = some j := by
  induction durations generalizing j t with
  | nil => simp at hj
  | cons d rest ih =>
      have hrest : ∀ x ∈ rest, 0 ≤ x := fun x hx => hd x (List.mem_cons_of_mem d hx)
      cases j with
      | zero =>
          simp only [List.take_zero, List.sum_nil] at h1
          rw [List.take_succ_cons, List.take_zero, List.sum_cons, List.sum_nil, add_zero] at h2
          simp only [resolveAux]
          rw [if_pos ⟨h1, h2⟩]
      | succ k =>
          rw [List.take_succ_cons, List.sum_cons] at h1
          rw [List.take_succ_cons, List.sum_cons] at h2
          have hnot : ¬ ((0:ℚ) ≤ t ∧ t < d) := by
            rintro ⟨-, hlt⟩
            have : 0 ≤ (rest.take k).sum :=
              List.sum_nonneg fun x hx => hrest x (List.mem_of_mem_take hx)
            linarith
          simp only [resolveAux]
          rw [if_neg hnot,
            ih hrest (Nat.succ_lt_succ_iff.mp hj) (by linarith) (by linarith)]
          rfl

lemma resolveAux_exists {durations : List ℚ} (hd : ∀ d ∈ durations, 0 ≤ d)
    {t : ℚ} (h0 : 0 ≤ t) (hT : t < durations.sum) :
    ∃ i, i < durations.length ∧ (durations.take i).sum ≤ t ∧
      t < (durations.take (i + 1)).sum ∧ resolveAux t durations = some i := by
  induction durations generalizing t with
  | nil =>
      exfalso
      rw [List.sum_nil] at hT
      linarith
  | cons d rest ih =>
      have hrest : ∀ x ∈ rest, 0 ≤ x := fun x hx => hd x (List.mem_cons_of_mem d hx)
      by_cases hlt : t < d
      · refine ⟨0, Nat.succ_pos _, ?_, ?_, ?_⟩
        · rw [List.take_zero, List.sum_nil]; exact h0
        · rw [List.take_succ_cons, List.take_zero, List.sum_cons, List.sum_nil, add_zero]
          exact hlt
        · simp only [resolveAux]; rw [if_pos ⟨h0, hlt⟩]
      · push_neg at hlt
        have h0' : 0 ≤ t - d := by linarith
        have hT' : t - d < rest.sum := by
          rw [List.sum_cons] at hT; linarith
        obtain ⟨i, hi, ha, hb, hc⟩ := ih hrest h0' hT'
        refine ⟨i + 1, Nat.succ_lt_succ hi, ?_, ?_, ?_⟩
        · rw [List.take_succ_cons, List.sum_cons]; linarith
        · rw [List.take_succ_cons, List.sum_cons]; linarith
        · simp only [resolveAux]
          rw [if_neg (fun hx => absurd hx.2 (not_lt.mpr hlt)), hc]
          rfl

lemma resolveAux_sum {durations : List ℚ} (hd : ∀ d ∈ durations, 0 ≤ d) :
    resolveAux durations.sum durations = none := by
  induction durations with
  | nil => rfl
  | cons d rest ih =>
      have hrest : ∀ x ∈ rest, 0 ≤ x := fun x hx => hd x (List.mem_cons_of_mem d hx)
      have hsum : 0 ≤ rest.sum := List.sum_nonneg hrest
      have h : ¬ ((0:ℚ) ≤ (d :: rest).sum ∧ (d :: rest).sum < d) := by
        rintro ⟨-, hlt⟩
        rw [List.sum_cons] at hlt
        linarith
      simp only [resolveAux]
      rw [if_neg h, List.sum_cons, add_sub_cancel_left, ih hrest]
      rfl

lemma findScene_eq_none_of_no_match {t : ℚ} {l : List SceneInfo}
    (h : ∀ s ∈ l, ¬ (s.startTime ≤ t ∧ t < s.endTime)) : findScene t l = none := by
  induction l with
  | nil => rfl
  | cons s rest ih =>
      simp only [findScene]
      rw [if_neg (h s (List.mem_cons_self s rest))]
      exact ih fun x hx => h x (List.mem_cons_of_mem s hx)

lemma findScene_mem {t : ℚ} {l : List SceneInfo} {i : ℕ}
    (h : findScene t l = some i) : ∃ s ∈ l, s.index = i := by
  induction l with
  | nil => simp [findScene] at h
  | cons s rest ih =>
      simp only [findScene] at h
      by_cases hc : s.startTime ≤ t ∧ t < s.endTime
      · rw [if_pos hc] at h
        exact ⟨s, List.mem_cons_self s rest, Option.some_inj.mp h⟩
      · rw [if_neg hc] at h
        obtain ⟨x, hx, hxi⟩ := ih h
        exact ⟨x, List.mem_cons_of_mem s hx, hxi⟩

lemma getSceneInfo_index_lt {durations : List ℚ} {s : SceneInfo}
    (h : s ∈ getSceneInfo durations) : s.index < durations.length := by
  unfold getSceneInfo at h
  obtain ⟨i, hi, rfl⟩ := List.mem_map.mp h
  simpa using List.mem_range.mp hi

/-- C1: the claim as stated is false on the code: with durations `[5, 3, 2]`
(total `10`), `getCurrentSceneIndex` resolves time `10` through the fallthrough
`return 0` of the scan, yielding index `0`, not the last index `2`. -/
theorem C1_counterexample :
    getCurrentSceneIndex 10 [5, 3, 2] = 0 ∧ getCurrentSceneIndex 10 [5, 3, 2] ≠ 2 := by
  have h : getCurrentSceneIndex 10 [5, 3, 2] = 0 := by
    rw [getCurrentSceneIndex_eq]; norm_num [resolveAux]
  exact ⟨h, by rw [h]; norm_num⟩

/-- C1 (amended): for any duration list with non-negative entries,
`getCurrentSceneIndex` is monotonic non-decreasing in time over `[0, total)`;
resolving time exactly equal to the cumulative total falls outside every scene
interval and yields the fallback index `0` (not `n - 1`). -/
theorem C1_resolver_monotone_amended (durations : List ℚ)
    (hd : ∀ d ∈ durations, 0 ≤ d) (t1 t2 : ℚ)
    (h0 : 0 ≤ t1) (h12 : t1 ≤ t2) (hT : t2 < durations.sum) :
    getCurrentSceneIndex t1 durations ≤ getCurrentSceneIndex t2 durations ∧
      getCurrentSceneIndex durations.sum durations = 0 := by
  constructor
  · obtain ⟨i, hi, hia, hib, hic⟩ := resolveAux_exists hd h0 (lt_of_le_of_lt h12 hT)
    obtain ⟨j, hj, hja, hjb, hjc⟩ := resolveAux_exists hd (le_trans h0 h12) hT
    rw [getCurrentSceneIndex_eq, getCurrentSceneIndex_eq, hic, hjc]
    simp only [Option.getD_some]
    by_contra hlt
    push_neg at hlt
    have : (durations.take (j + 1)).sum ≤ (durations.take i).sum :=
      take_sum_le_take_sum hd hlt
    linarith
  · rw [getCurrentSceneIndex_eq, resolveAux_sum hd]
    rfl

/-- C1 witness: the amended theorem instantiated at durations `[5, 3, 2]`,
times `3 ≤ 9 < 10`. -/
theorem C1_witness :
    (∀ d ∈ ([5, 3, 2] : List ℚ), 0 ≤ d) ∧ (0:ℚ) ≤ 3 ∧ (3:ℚ) ≤ 9 ∧
      (9:ℚ) < ([5, 3, 2] : List ℚ).sum ∧
      (getCurrentSceneIndex 3 [5, 3, 2] ≤ getCurrentSceneIndex 9 [5, 3, 2] ∧
        getCurrentSceneIndex (([5, 3, 2] : List ℚ).sum) [5, 3, 2] = 0) := by
  have hd : ∀ d ∈ ([5, 3, 2] : List ℚ), 0 ≤ d := by
    intro d hdm
    simp only [List.mem_cons, List.not_mem_nil, or_false] at hdm
    rcases hdm with rfl | rfl | rfl <;> norm_num
  have hsum : ([5, 3, 2] : List ℚ).sum = 10 := by norm_num [List.sum_cons, List.sum_nil]
  exact ⟨hd, by norm_num, by norm_num, by rw [hsum]; norm_num,
    C1_resolver_monotone_amended [5, 3, 2] hd 3 9 (by norm_num) (by norm_num)
      (by rw [hsum]; norm_num)⟩

/-- C2: the claim as stated is false on the code: with durations `[5, 3, 2]`
the scene intervals are `[0,5)`, `[5,8)`, `[8,10)`, so resolving time `7.5`
yields index `1`, not the claimed index `2`. -/
theorem C2_counterexample :
    getCurrentSceneIndex (15/2) [5, 3, 2] = 1 ∧ getCurrentSceneIndex (15/2) [5, 3, 2] ≠ 2 := by
  have h : getCurrentSceneIndex (15/2) [5, 3, 2] = 1 := by
    rw [getCurrentSceneIndex_eq]; norm_num [resolveAux]
  exact ⟨h, by rw [h]; norm_num⟩

/-- C2 (amended): for positive durations, a time lying exactly on a scene's
start boundary resolves to the scene that starts there (not the one that ends
there); for durations `[5, 3, 2]`: time `0` resolves to index `0`, time `5`
to index `1`, and time `7.5` to index `1` (not `2`). -/
theorem C2_boundary_amended (durations : List ℚ) (hd : ∀ d ∈ durations, 0 < d)
    (j : ℕ) (hj : j < durations.length) :
    getCurrentSceneIndex ((durations.take j).sum) durations = j ∧
      getCurrentSceneIndex 0 [5, 3, 2] = 0 ∧
      getCurrentSceneIndex 5 [5, 3, 2] = 1 ∧
      getCurrentSceneIndex (15/2) [5, 3, 2] = 1 := by
  refine ⟨?_, ?_, ?_, ?_⟩
  · have hd' : ∀ d ∈ durations, 0 ≤ d := fun d h => le_of_lt (hd d h)
    have h2 : (durations.take j).sum < (durations.take (j + 1)).sum := by
      rw [List.take_succ, List.sum_append]
      have hget : 0 < (durations[j]?).toList.sum := by
        rw [List.getElem?_eq_getElem hj]
        simp only [Option.toList_some, List.sum_cons, List.sum_nil, add_zero]
        exact hd _ (List.getElem_mem hj)
      linarith
    rw [getCurrentSceneIndex_eq, resolveAux_eq_of_mem hd' hj (le_refl _) h2]
    rfl
  · rw [getCurrentSceneIndex_eq]; norm_num [resolveAux]
  · rw [getCurrentSceneIndex_eq]; norm_num [resolveAux]
  · rw [getCurrentSceneIndex_eq]; norm_num [resolveAux]

/-- C2 witness: the amended theorem instantiated at durations `[5, 3, 2]` and
boundary index `1` (boundary time `5` resolves to the scene starting there). -/
theorem C2_witness :
    (∀ d ∈ ([5, 3, 2] : List ℚ), 0 < d) ∧ 1 < ([5, 3, 2] : List ℚ).length ∧
      (getCurrentSceneIndex ((([5, 3, 2] : List ℚ).take 1).sum) [5, 3, 2] = 1 ∧
        getCurrentSceneIndex 0 [5, 3, 2] = 0 ∧
        getCurrentSceneIndex 5 [5, 3, 2] = 1 ∧
        getCurrentSceneIndex (15/2) [5, 3, 2] = 1) := by
  have hd : ∀ d ∈ ([5, 3, 2] : List ℚ), 0 < d := by
    intro d hdm
    simp only [List.mem_cons, List.not_mem_nil, or_false] at hdm
    rcases hdm with rfl | rfl | rfl <;> norm_num
  exact ⟨hd, by norm_num, C2_boundary_amended [5, 3, 2] hd 1 (by norm_num)⟩

/-- C10: the scene index resolver is total with a silent fallback: for every
time and duration list, when the list is empty or no scene interval
`[startTime, endTime)` contains the time, it returns `0`; in every case the
result is `0` or a valid index below the number of scenes. -/
theorem C10_resolver_total_fallback (t : ℚ) (durations : List ℚ) :
    (durations = [] → getCurrentSceneIndex t durations = 0) ∧
    ((∀ s ∈ getSceneInfo durations, ¬ (s.startTime ≤ t ∧ t < s.endTime)) →
      getCurrentSceneIndex t durations = 0) ∧
    (getCurrentSceneIndex t durations = 0 ∨
      getCurrentSceneIndex t durations < durations.length) := by
  refine ⟨?_, ?_, ?_⟩
  · rintro rfl; rfl
  · intro h
    rw [getCurrentSceneIndex, findScene_eq_none_of_no_match h]
    rfl
  · rcases hfs : findScene t (getSceneInfo durations) with _ | i
    · left
      rw [getCurrentSceneIndex, hfs]
      rfl
    · right
      rw [getCurrentSceneIndex, hfs]
      simp only [Option.getD_some]
      obtain ⟨s, hs, hsi⟩ := findScene_mem hfs
      exact hsi ▸ getSceneInfo_index_lt hs

/-- C10 witness: the totality theorem instantiated at the negative time `-1`
and durations `[5, 3, 2]`: no scene interval contains `-1`, and the resolver
falls back to `0`. -/
theorem C10_witness :
    (∀ s ∈ getSceneInfo ([5, 3, 2] : List ℚ),
        ¬ (s.startTime ≤ (-1 : ℚ) ∧ (-1 : ℚ) < s.endTime)) ∧
      getCurrentSceneIndex (-1) [5, 3, 2] = 0 := by
  have h : ∀ s ∈ getSceneInfo ([5, 3, 2] : List ℚ),
      ¬ (s.startTime ≤ (-1 : ℚ) ∧ (-1 : ℚ) < s.endTime) := by
    simp only [getSceneInfo_cons, getSceneInfo_nil, List.map_nil, List.map_cons,
      List.mem_cons, List.not_mem_nil, or_false]
    rintro s (rfl | rfl | rfl) <;> norm_num
  exact ⟨h, (C10_resolver_total_fallback (-1) [5, 3, 2]).2.1 h⟩

/-- Outcome of one playing-state tick: the `isPlaying` flag after the update,
the new `currentTime`, and the scene index passed to `onSceneChange` when the
tick fired it. -/
structure TickResult where
  isPlaying : Bool
  currentTime : ℚ
  sceneChangeEvent : Option ℕ
  deriving Repr, DecidableEq

/-- The `setCurrentTime` updater of `tick` (VideoTimeline.js lines 79-93), run
while `isPlaying && !isDragging`: `newTime = prev + deltaMs / 1000`; if
`newTime >= totalDuration` the clock stops (`setIsPlaying(false)`) and the
updater returns `0`; otherwise the scene index is resolved at `newTime`,
`onSceneChange` fires when it differs from `currentScene`, and `newTime` is
kept. -/
def tickUpdate (totalDuration : ℚ) (durations : List ℚ) (currentScene : ℕ)
    (prev deltaMs : ℚ) : TickResult :=
  if totalDuration ≤ prev + deltaMs / 1000 then
    { isPlaying := false, currentTime := 0, sceneChangeEvent := none }
  else
    { isPlaying := true
      currentTime := prev + deltaMs / 1000
      sceneChangeEvent :=
        if getCurrentSceneIndex (prev + deltaMs / 1000) durations ≠ currentScene then
          some (getCurrentSceneIndex (prev + deltaMs / 1000) durations)
        else none }

/-- C3: a playing-state tick keeps `currentTime` inside `[0, totalDuration]`
for every non-negative injected wall-clock delta, including one large enough
to overshoot the total (the overshoot branch resets the time to `0`). -/
theorem C3_tick_time_in_range (totalDuration : ℚ) (durations : List ℚ)
    (currentScene : ℕ) (prev deltaMs : ℚ)
    (hprev : 0 ≤ prev) (hdelta : 0 ≤ deltaMs) (htot : 0 ≤ totalDuration) :
    0 ≤ (tickUpdate totalDuration durations currentScene prev deltaMs).currentTime ∧
      (tickUpdate totalDuration durations currentScene prev deltaMs).currentTime
        ≤ totalDuration := by
  unfold tickUpdate
  by_cases h : totalDuration ≤ prev + deltaMs / 1000
  · rw [if_pos h]
    exact ⟨le_refl 0, htot⟩
  · rw [if_neg h]
    push_neg at h
    have hdiv : 0 ≤ deltaMs / 1000 := by positivity
    refine ⟨?_, ?_⟩
    · show 0 ≤ prev + deltaMs / 1000
      linarith
    · show prev + deltaMs / 1000 ≤ totalDuration
      linarith

/-- C3 witness: the range theorem at durations `[5, 3, 2]`, total `10`,
previous time `0` and a single huge delta of `10^8` ms. -/
theorem C3_witness :
    (0:ℚ) ≤ 0 ∧ (0:ℚ) ≤ 100000000 ∧ (0:ℚ) ≤ 10 ∧
      (0 ≤ (tickUpdate 10 [5, 3, 2] 0 0 100000000).currentTime ∧
        (tickUpdate 10 [5, 3, 2] 0 0 100000000).currentTime ≤ 10) :=
  ⟨le_refl 0, by norm_num, by norm_num,
    C3_tick_time_in_range 10 [5, 3, 2] 0 0 100000000 (le_refl 0) (by norm_num)
      (by norm_num)⟩

/-- C4: whenever a playing-state tick advances the time to at least the total
duration, the clock transitions to paused (`isPlaying = false`) and
`currentTime` is reset to `0`. -/
theorem C4_tick_end_pauses_and_resets (totalDuration : ℚ) (durations : List ℚ)
    (currentScene : ℕ) (prev deltaMs : ℚ)
    (hend : totalDuration ≤ prev + deltaMs / 1000) :
    (tickUpdate totalDuration durations currentScene prev deltaMs).isPlaying = false ∧
      (tickUpdate totalDuration durations currentScene prev deltaMs).currentTime = 0 := by
  unfold tickUpdate
  rw [if_pos hend]
  exact ⟨rfl, rfl⟩

/-- C4 witness: the end-of-timeline theorem at durations `[5, 3, 2]`, total
`10`, previous time `9` and a delta of `2000` ms (new time `11 ≥ 10`). -/
theorem C4_witness :
    (10:ℚ) ≤ 9 + 2000 / 1000 ∧
      ((tickUpdate 10 [5, 3, 2] 0 9 2000).isPlaying = false ∧
        (tickUpdate 10 [5, 3, 2] 0 9 2000).currentTime = 0) :=
  ⟨by norm_num, C4_tick_end_pauses_and_resets 10 [5, 3, 2] 0 9 2000 (by norm_num)⟩

/-- Outcome of the drag-end handler: the `isDragging` flag and the scene index
passed to `onSceneChange` when the handler fired it. -/
structure SliderDragEndResult where
  isDragging : Bool
  sceneChangeEvent : Option ℕ
  deriving Repr, DecidableEq

/-- `handleSliderAfterChange` (VideoTimeline.js lines 127-131): drag end
clears `isDragging`, resolves the scene index once from the final slider
value, and calls `onSceneChange` with it — with no comparison against the
previously published index. -/
def handleSliderAfterChange (durations : List ℚ) (value : ℚ) : SliderDragEndResult :=
  { isDragging := false
    sceneChangeEvent := some (getCurrentSceneIndex value durations) }

/-- C5: false as stated: ending a drag at time `2` (durations `[5, 3, 2]`)
resolves to index `0`; with the previously published index also `0` the claim
says the callback must not fire, yet `handleSliderAfterChange` fires it. -/
theorem C5_counterexample :
    getCurrentSceneIndex 2 [5, 3, 2] = 0 ∧
      (handleSliderAfterChange [5, 3, 2] 2).sceneChangeEvent = some 0 := by
  have h : getCurrentSceneIndex 2 [5, 3, 2] = 0 := by
    rw [getCurrentSceneIndex_eq]; norm_num [resolveAux]
  exact ⟨h, by simp [handleSliderAfterChange, h]⟩

/-- C5 (amended): on drag end the scene index is resolved exactly once from
the final time, but the scene-change callback fires unconditionally with that
index — also when it equals the previously published index. -/
theorem C5_dragend_fires_unconditionally_amended (durations : List ℚ) (value : ℚ) :
    (handleSliderAfterChange durations value).sceneChangeEvent =
        some (getCurrentSceneIndex value durations) ∧
      (handleSliderAfterChange durations value).sceneChangeEvent ≠ none ∧
      (handleSliderAfterChange durations value).isDragging = false :=
  ⟨rfl, by simp [handleSliderAfterChange], rfl⟩

end VideoTimeline

namespace VideoPreview

/-- The polling effect (VideoPreview.js lines 60-66) runs
`setInterval(checkVideoStatus, 2000)`: the host timer fires at
`interval, 2*interval, ...` and each firing invokes `checkVideoStatus`
unconditionally — neither the effect nor `checkVideoStatus` (lines 82-96)
consults any in-flight flag before issuing the status request; `startPolling`
in VideoExport.js (lines 80-87) is the same pattern.  `pollStartTimes
intervalMs n` lists the times (ms) at which the first `n` timer firings each
start a status request. -/
def pollStartTimes (intervalMs : ℕ) (n : ℕ) : List ℕ :=
  (List.range n).map fun k => (k + 1) * intervalMs

/-- Number of status requests in flight at time `t` when each request resolves
after `latencyMs`: a request started at `s` is outstanding while
`s ≤ t < s + latencyMs`. -/
def inFlightCount (starts : List ℕ) (latencyMs : ℕ) (t : ℕ) : ℕ :=
  (starts.filter fun s => decide (s ≤ t ∧ t < s + latencyMs)).length

/-- C6: false as stated: with a 2000 ms interval and a request latency of
3000 ms, at time 4000 ms the requests started at 2000 ms and 4000 ms are both
in flight — the second tick is not skipped. -/
theorem C6_counterexample :
    ¬ inFlightCount (pollStartTimes 2000 2) 3000 4000 ≤ 1 := by decide

/-- C6 (amended): every scheduled polling tick starts a status check
unconditionally; whenever the check latency exceeds the polling interval, at
least two invocations are in flight at the second tick — the code has no
in-flight guard that would skip a tick. -/
theorem C6_no_overlap_guard_amended (intervalMs latencyMs : ℕ)
    (hpos : 0 < intervalMs) (hlat : intervalMs < latencyMs) :
    2 ≤ inFlightCount (pollStartTimes intervalMs 2) latencyMs (2 * intervalMs) := by
  have hr : List.range 2 = [0, 1] := rfl
  have h1 : pollStartTimes intervalMs 2 = [intervalMs, 2 * intervalMs] := by
    simp [pollStartTimes, hr]
  have ha : intervalMs ≤ 2 * intervalMs ∧ 2 * intervalMs < intervalMs + latencyMs := by
    constructor <;> omega
  have hb : 2 * intervalMs ≤ 2 * intervalMs ∧
      2 * intervalMs < 2 * intervalMs + latencyMs := by
    constructor <;> omega
  rw [h1]
  simp [inFlightCount, List.filter, ha.1, ha.2, hb.1, hb.2]

/-- C6 witness: the amended theorem at a 1000 ms interval and 2500 ms latency. -/
theorem C6_witness :
    0 < 1000 ∧ 1000 < 2500 ∧
      2 ≤ inFlightCount (pollStartTimes 1000 2) 2500 (2 * 1000) :=
  ⟨by norm_num, by norm_num,
    C6_no_overlap_guard_amended 1000 2500 (by norm_num) (by norm_num)⟩

/-- Projection of the VideoPreview state touched by `checkVideoStatus`:
`videoStatus`, `progress`, plus the `onVideoCreated` notifications fired. -/
structure PreviewState where
  videoStatus : Option String
  progress : ℕ
  videoCreatedEvents : List String
  deriving Repr, DecidableEq

/-- The response handler of `checkVideoStatus` (VideoPreview.js lines 84-92):
store the reported status unconditionally; on "completed" set progress to 100
and fire `onVideoCreated(videoId)`; on "processing" bump progress by 10,
capped at 90. -/
def applyStatusResponse (videoId : String) (st : PreviewState) (status : String) :
    PreviewState :=
  let st1 : PreviewState := { st with videoStatus := some status }
  if status = "completed" then
    { st1 with progress := 100, videoCreatedEvents := st1.videoCreatedEvents ++ [videoId] }
  else if status = "processing" then
    { st1 with progress := min (st1.progress + 10) 90 }
  else st1

/-- One polling loop for a given video id: `intervalActive` records whether
the `setInterval` handle from the effect (lines 60-66) is still scheduled,
`inFlight` whether a `checkVideoStatus` request awaits its response. -/
structure PollLoop where
  intervalActive : Bool
  inFlight : Bool
  st : PreviewState
  deriving Repr, DecidableEq

inductive PollEvent where
  | tick : PollEvent
  | stop : PollEvent
  | response : String → PollEvent
  deriving Repr, DecidableEq

/-- Event semantics of the polling code: a timer tick starts a status request
while the interval is scheduled; the effect cleanup (`clearInterval`, line 65)
only unschedules the timer; an arriving response runs the `checkVideoStatus`
handler unconditionally — the code has no epoch or staleness check, so the
response is applied even when the interval was cleared in the meantime. -/
def pollStep (videoId : String) (l : PollLoop) : PollEvent → PollLoop
  | .tick => if l.intervalActive then { l with inFlight := true } else l
  | .stop => { l with intervalActive := false }
  | .response status =>
      if l.inFlight then
        { l with inFlight := false, st := applyStatusResponse videoId l.st status }
      else l

def pollRun (videoId : String) (init : PollLoop) (events : List PollEvent) : PollLoop :=
  events.foldl (pollStep videoId) init

/-- Loop state right after a successful submission: interval scheduled, no
request in flight, status "processing", progress 20 (lines 219-221). -/
def initLoop : PollLoop :=
  { intervalActive := true, inFlight := false
    st := { videoStatus := some "processing", progress := 20, videoCreatedEvents := [] } }

/-- C7: false as stated: a status request started before `stop` and answered
after it is applied, not silently discarded — after the trace tick, stop,
response "completed", the stored status is "completed" and `onVideoCreated`
has fired. -/
theorem C7_counterexample :
    (pollRun "v1" initLoop [.tick, .stop, .response "completed"]).st.videoStatus
        = some "completed" ∧
      (pollRun "v1" initLoop [.tick, .stop, .response "completed"]).st.videoCreatedEvents
        = ["v1"] := by
  constructor <;> rfl

/-- C7 (amended): stopping the poll loop only unschedules future timer ticks
(a tick after stop starts nothing); a response already in flight at the stop
is still applied to the job state on arrival, exactly as if no stop had
occurred. -/
theorem C7_stale_response_applied_amended (videoId : String) (l : PollLoop)
    (status : String) (h : l.inFlight = true) :
    (pollStep videoId (pollStep videoId l .stop) (.response status)).st
        = applyStatusResponse videoId l.st status ∧
      pollStep videoId (pollStep videoId l .stop) .tick
        = pollStep videoId l .stop := by
  constructor
  · simp [pollStep, h]
  · simp [pollStep]

/-- C7 witness: the amended theorem at the post-submission loop with a request
in flight and a late "completed" response. -/
theorem C7_witness :
    ({ initLoop with inFlight := true } : PollLoop).inFlight = true ∧
      ((pollStep "v1" (pollStep "v1" { initLoop with inFlight := true } .stop)
            (.response "completed")).st
          = applyStatusResponse "v1"
              ({ initLoop with inFlight := true } : PollLoop).st "completed" ∧
        pollStep "v1" (pollStep "v1" { initLoop with inFlight := true } .stop) .tick
          = pollStep "v1" { initLoop with inFlight := true } .stop) :=
  ⟨rfl, C7_stale_response_applied_amended "v1" _ "completed" rfl⟩

/-- The VideoPreview state consulted by submission: `loading`, `progress`,
`videoId`, `videoStatus`. -/
structure CreateState where
  loading : Bool
  progress : ℕ
  videoId : Option String
  videoStatus : Option String
  deriving Repr, DecidableEq

/-- `handleCreateVideo` (VideoPreview.js lines 204-237), success path: with no
precondition on the current state it sets `loading`, posts one
`/video/create` request (counted by the second component), and overwrites
`videoId`, `videoStatus`, `progress` with the new job's values. -/
def handleCreateVideo (_st : CreateState) (newId : String) : CreateState × ℕ :=
  ({ loading := true, progress := 20, videoId := some newId,
     videoStatus := some "processing" }, 1)

/-- The submit button (VideoPreview.js lines 428-440) is rendered only while
`!videoId`. -/
def submitButtonVisible (st : CreateState) : Bool :=
  st.videoId.isNone

/-- A state in which job "j1" is currently processing. -/
def busyState : CreateState :=
  { loading := false, progress := 50, videoId := some "j1",
    videoStatus := some "processing" }

/-- C8: false as stated: invoked while job "j1" is processing,
`handleCreateVideo` is not a rejected no-op — it issues another create request
and replaces the tracked job with the new id "j2". -/
theorem C8_counterexample :
    busyState.videoStatus = some "processing" ∧
      (handleCreateVideo busyState "j2").2 = 1 ∧
      (handleCreateVideo busyState "j2").1.videoId = some "j2" ∧
      (handleCreateVideo busyState "j2").1.videoId ≠ busyState.videoId := by
  refine ⟨rfl, rfl, rfl, ?_⟩
  simp [handleCreateVideo, busyState]

/-- C8 (amended): `handleCreateVideo` performs no busy check — even while a
job is tracked it issues exactly one new create request and overwrites the
tracked job with the new id; duplicate submission is prevented only by the
surrounding UI, which renders the submit button only while no `videoId` is
tracked. -/
theorem C8_no_busy_guard_amended (st : CreateState) (newId : String)
    (j : String) (hj : st.videoId = some j) :
    (handleCreateVideo st newId).2 = 1 ∧
      (handleCreateVideo st newId).1.videoId = some newId ∧
      submitButtonVisible st = false := by
  refine ⟨rfl, rfl, ?_⟩
  simp [submitButtonVisible, hj]

/-- C8 witness: the amended theorem at the busy state tracking job "j1" and a
second submission producing job "j2". -/
theorem C8_witness :
    busyState.videoId = some "j1" ∧
      ((handleCreateVideo busyState "j2").2 = 1 ∧
        (handleCreateVideo busyState "j2").1.videoId = some "j2" ∧
        submitButtonVisible busyState = false) :=
  ⟨rfl, C8_no_busy_guard_amended busyState "j2" "j1" rfl⟩

end VideoPreview

namespace VideoDownload

/-- The URL choice of `handleDownload` (VideoDownload.js):
`useCloud && cloudDownloadUrl ? cloudDownloadUrl : downloadUrl`, where the
cloud URL state is nullable (its initial value, the empty string, is falsy). -/
def downloadLocator (useCloud : Bool) (cloudDownloadUrl : Option String)
    (downloadUrl : String) : String :=
  match useCloud, cloudDownloadUrl with
  | true, some c => c
  | _, _ => downloadUrl

/-- The primary download button invokes `handleDownload(false)` (VideoDownload
download buttons), so the primary locator is computed with `useCloud = false`;
the cloud variant is a separate button that passes `true`. -/
def primaryDownloadLocator (cloudDownloadUrl : Option String)
    (downloadUrl : String) : String :=
  downloadLocator false cloudDownloadUrl downloadUrl

/-- C9: false as stated: with both a cloud and a local reference present, the
primary download action (`handleDownload(false)`) uses the local reference,
not the preferred cloud one. -/
theorem C9_counterexample :
    primaryDownloadLocator (some "cloud-url") "local-url" = "local-url" ∧
      primaryDownloadLocator (some "cloud-url") "local-url" ≠ "cloud-url" := by
  refine ⟨rfl, ?_⟩
  decide

/-- C9 (amended): the cloud reference is used only when the caller explicitly
requests a cloud download (`useCloud = true`, the separate cloud button) and a
cloud reference exists; the primary download action passes `useCloud = false`
and therefore uses the local reference even when a cloud one exists. -/
theorem C9_locator_amended (cloudDownloadUrl : Option String) (downloadUrl : String)
    (c : String) (hc : cloudDownloadUrl = some c) :
    downloadLocator true cloudDownloadUrl downloadUrl = c ∧
      primaryDownloadLocator cloudDownloadUrl downloadUrl = downloadUrl ∧
      downloadLocator false cloudDownloadUrl downloadUrl = downloadUrl ∧
      downloadLocator true none downloadUrl = downloadUrl := by
  subst hc
  exact ⟨rfl, rfl, rfl, rfl⟩

/-- C9 witness: the amended theorem with both references present. -/
theorem C9_witness :
    (some "cloud-url" : Option String) = some "cloud-url" ∧
      (downloadLocator true (some "cloud-url") "local-url" = "cloud-url" ∧
        primaryDownloadLocator (some "cloud-url") "local-url" = "local-url" ∧
        downloadLocator false (some "cloud-url") "local-url" = "local-url" ∧
        downloadLocator true none "local-url" = "local-url") :=
  ⟨rfl, C9_locator_amended (some "cloud-url") "local-url" "cloud-url" rfl⟩

end VideoDownload
